import Mathlib

/-!
Verification of the fast-food aggregation-and-classification pipeline
(src/fastfood.py) against its natural-language specification.

The embedding models Python strings as Lean strings with all operations
carried out on their character lists: lowercasing is the ASCII fragment of
Python str.lower, and the Python substring test `needle in hay` is an
explicit character-list scan.  Records model DataFrame rows; a column that
a row does not yet have is an Option that is none.  Python exceptions are
modelled with Except, and the try/except wrapper of each pipeline function
(which logs and falls off the end, returning None) maps the Except result
to an Option via toOption.  Numeric cell values are modelled as rationals;
a cell holding a non-numeric value is a PyVal.str, on which arithmetic
raises (returns Except.error), as pandas aggregation does on object dtype.

Grouping follows pandas groupby with sort=True: the group keys are the
distinct restaurant names in ascending (code-point lexicographic) order.
Value sorting in the ranking is modelled with a stable insertion sort;
pandas' default sort kind (quicksort) is not documented as stable, which
matters only to tie-breaking among equal averages.
-/

namespace Fastfood

/-- A cell value of the dataset: either numeric (modelled as a rational) or a
non-numeric string, on which pandas aggregation raises a TypeError. -/
inductive PyVal where
  | num (q : ℚ)
  | str (s : String)
deriving DecidableEq, Repr

/-- ASCII fragment of Python str.lower, one character at a time: each of the
26 uppercase ASCII letters maps to its lowercase form, everything else is
unchanged. -/
def lowerChar (c : Char) : Char :=
  match c with
  | 'A' => 'a' | 'B' => 'b' | 'C' => 'c' | 'D' => 'd' | 'E' => 'e'
  | 'F' => 'f' | 'G' => 'g' | 'H' => 'h' | 'I' => 'i' | 'J' => 'j'
  | 'K' => 'k' | 'L' => 'l' | 'M' => 'm' | 'N' => 'n' | 'O' => 'o'
  | 'P' => 'p' | 'Q' => 'q' | 'R' => 'r' | 'S' => 's' | 'T' => 't'
  | 'U' => 'u' | 'V' => 'v' | 'W' => 'w' | 'X' => 'x' | 'Y' => 'y'
  | 'Z' => 'z'
  | c => c

/-- Python item.lower(), as the list of lowercased characters. -/
def pyLower (s : String) : List Char := s.data.map lowerChar

/-- Whether the first list is an initial segment of the second. -/
def leadsCL : List Char → List Char → Bool
  | [], _ => true
  | _ :: _, [] => false
  | a :: as, b :: bs => a == b && leadsCL as bs

/-- Python substring test: needle occurs contiguously somewhere in hay. -/
def containsCL (needle : List Char) : List Char → Bool
  | [] => leadsCL needle []
  | c :: t => leadsCL needle (c :: t) || containsCL needle t

/-- Python `needle in hay` where hay is an already-lowercased name. -/
def pyIn (needle : String) (hay : List Char) : Bool :=
  containsCL needle.data hay

/-- Python ','.join-style concatenation with a separator between entries. -/
def pyJoin (sep : String) : List String → String
  | [] => ""
  | [s] => s
  | s :: rest => s ++ sep ++ pyJoin sep rest

/-- Code-point lexicographic strict order on character lists, as Python
compares strings. -/
def charListLt : List Char → List Char → Bool
  | _, [] => false
  | [], _ :: _ => true
  | a :: as, b :: bs => if a < b then true else if b < a then false else charListLt as bs

/-- Python string strict order. -/
def strLt (a b : String) : Bool := charListLt a.data b.data

/-- Python string order, inclusive. -/
def strLe (a b : String) : Bool := strLt a b || a == b

/-- A row of the fastfood DataFrame.  The category and sub_category columns
are absent (none) until the classifier writes them. -/
structure Row where
  restaurant : String
  item : String
  calories : PyVal
  total_carb : PyVal
  category : Option String := none
  sub_category : Option String := none
deriving DecidableEq, Repr

/-! ## Classifier, stage 1: categorize_food_items (src/fastfood.py lines 103-134) -/

def main_keywords : List String := ["burger", "sandwich", "pizza"]

def side_keywords : List String := ["fries", "salad"]

def dessert_keywords : List String := ["ice cream", "cake"]

/-- The per-row category rule of categorize_food_items: first keyword group
with a case-insensitive substring match wins, in the order Main, Side,
Dessert; otherwise Other. -/
def categorize_item (item : String) : String :=
  if main_keywords.any (fun keyword => pyIn keyword (pyLower item)) then "Main"
  else if side_keywords.any (fun keyword => pyIn keyword (pyLower item)) then "Side"
  else if dessert_keywords.any (fun keyword => pyIn keyword (pyLower item)) then "Dessert"
  else "Other"

/-- The whole of categorize_food_items: write the category column on every
row.  The row computation cannot raise on a well-formed row, so the
try/except wrapper always returns the categorized frame. -/
def categorize_food_items (data : List Row) : Option (List Row) :=
  some (data.map fun r => { r with category := some (categorize_item r.item) })

/-- Modelled from the spec: the ordered category rule table of section 4.2,
an ordered list of label and keyword-set pairs. -/
def category_rules : List (String × List String) :=
  [("Main", ["burger", "sandwich", "pizza"]),
   ("Side", ["fries", "salad"]),
   ("Dessert", ["ice cream", "cake"])]

/-- Modelled from the spec: stage-1 classification as section 4.2 words it.
Evaluate the ordered keyword groups against the item name by
case-insensitive substring match; the first group with any matching keyword
wins, and if none match the category is Other. -/
def spec_categorize (item : String) : String :=
  match category_rules.find? (fun rule => rule.2.any fun k => pyIn k (pyLower item)) with
  | some rule => rule.1
  | none => "Other"

/-! ## Classifier, stage 2: add_subcategory (src/fastfood.py lines 136-170) -/

/-- The protein labels collected by get_subcategory, in its fixed scan order:
Chicken, Beef, Seafood, Pork, each appended when its lowercase keyword occurs
in the lowercased item name. -/
def collect_subcategories (item : String) : List String :=
  let s0 : List String := []
  let s1 := if pyIn "chicken" (pyLower item) then s0 ++ ["Chicken"] else s0
  let s2 := if pyIn "beef" (pyLower item) then s1 ++ ["Beef"] else s1
  let s3 := if pyIn "seafood" (pyLower item) then s2 ++ ["Seafood"] else s2
  let s4 := if pyIn "pork" (pyLower item) then s3 ++ ["Pork"] else s3
  s4

/-- The label list get_subcategory builds for a row with the given category
column value: for Main the collected proteins, then Other appended when the
guard holds; otherwise empty.  The guard is the source's literal test that
no collected (capitalized) label occurs in the lowercased item name. -/
def subcategory_labels (category : String) (item : String) : List String :=
  if category = "Main" then
    let subs := collect_subcategories item
    if subs.all (fun subcategory => !(pyIn subcategory (pyLower item))) then
      subs ++ ["Other"]
    else subs
  else []

/-- The per-row computation of get_subcategory: reading a missing category
column raises a KeyError, otherwise the joined label string is returned. -/
def get_subcategory (row : Row) : Except String String :=
  match row.category with
  | none => Except.error "KeyError: category"
  | some category => Except.ok (pyJoin "," (subcategory_labels category row.item))

/-- Run an Except-valued function over a list, stopping at the first error,
as DataFrame.apply stops at the first raising row. -/
def mapMExcept (f : α → Except ε β) : List α → Except ε (List β)
  | [] => Except.ok []
  | x :: xs => do
    let y ← f x
    let ys ← mapMExcept f xs
    pure (y :: ys)

/-- The whole of add_subcategory: write the sub_category column on every
row; any raising row makes the try/except wrapper return None. -/
def add_subcategory (data : List Row) : Option (List Row) :=
  (mapMExcept (fun r => do
    let s ← get_subcategory r
    pure { r with sub_category := some s }) data).toOption

/-- The classification stage of main: categorize_food_items, then
add_subcategory on its output. -/
def classifyStage (data : List Row) : Option (List Row) :=
  (categorize_food_items data).bind add_subcategory

/-- Both derived columns of a row after the classification stage, as a pure
function of the raw row. -/
def classifyRow (r : Row) : Row :=
  { r with
    category := some (categorize_item r.item)
    sub_category := some (pyJoin "," (subcategory_labels (categorize_item r.item) r.item)) }

/-! ## Aggregator: calculate_calorie_stats (lines 47-62) and
rank_restaurants_by_carbs (lines 64-80) -/

/-- Arithmetic on a cell value: a numeric cell yields its rational, a
non-numeric cell raises the TypeError pandas aggregation reports. -/
def toNum : PyVal → Except String ℚ
  | PyVal.num q => Except.ok q
  | PyVal.str s => Except.error ("TypeError: non-numeric value " ++ s)

/-- The groupby keys with pandas sort=True: the distinct restaurant names in
ascending order. -/
def sortedRestaurants (data : List Row) : List String :=
  ((data.map fun r => r.restaurant).dedup).insertionSort fun a b => strLe a b = true

/-- The rows of one restaurant group, in dataset order. -/
def groupRecords (data : List Row) (r : String) : List Row :=
  data.filter fun row => row.restaurant = r

/-- Smallest entry of a list of rationals (the groups aggregated are never
empty, so the value on the empty list is irrelevant). -/
def listMin : List ℚ → ℚ
  | [] => 0
  | q :: qs => qs.foldl min q

/-- Largest entry of a list of rationals. -/
def listMax : List ℚ → ℚ
  | [] => 0
  | q :: qs => qs.foldl max q

/-- Arithmetic mean of a list of rationals. -/
def listMean (qs : List ℚ) : ℚ := qs.sum / qs.length

/-- The mean, min and max aggregate of one restaurant group, as
calculate_calorie_stats computes them. -/
structure CalorieStat where
  mean : ℚ
  min : ℚ
  max : ℚ
deriving DecidableEq, Repr

/-- The groupby-agg of calculate_calorie_stats: one mean/min/max row per
restaurant, raising on the first non-numeric calories value. -/
def calorieStatsAgg (data : List Row) : Except String (List (String × CalorieStat)) :=
  mapMExcept (fun r => do
    let cals ← mapMExcept (fun row => toNum row.calories) (groupRecords data r)
    pure (r, CalorieStat.mk (listMean cals) (listMin cals) (listMax cals)))
    (sortedRestaurants data)

/-- The whole of calculate_calorie_stats: its try/except wrapper logs any
exception and returns None. -/
def calculate_calorie_stats (data : List Row) : Option (List (String × CalorieStat)) :=
  (calorieStatsAgg data).toOption

/-- The per-restaurant average total_carb values in groupby key order,
raising on the first non-numeric total_carb value. -/
def carbAverages (data : List Row) : Except String (List (String × ℚ)) :=
  mapMExcept (fun r => do
    let carbs ← mapMExcept (fun row => toNum row.total_carb) (groupRecords data r)
    pure (r, listMean carbs))
    (sortedRestaurants data)

/-- The sort_values-then-head(5) of rank_restaurants_by_carbs over the
per-restaurant averages.  The value sort is modelled as a stable insertion
sort; pandas' default quicksort promises only the value order. -/
def rankCore (avgs : List (String × ℚ)) : List (String × ℚ) :=
  (avgs.insertionSort fun a b => a.2 ≤ b.2).take 5

/-- The whole of rank_restaurants_by_carbs: averages per restaurant, sorted
ascending, first five rows; its try/except wrapper returns None on any
exception. -/
def rank_restaurants_by_carbs (data : List Row) : Option (List (String × ℚ)) :=
  ((carbAverages data).map rankCore).toOption

/-! ## Sample data for the concrete instances of the spec's examples -/

/-- A raw row with the given restaurant, item name and numeric cells. -/
def sampleRow (name item : String) (cal carb : ℚ) : Row :=
  { restaurant := name, item := item, calories := PyVal.num cal, total_carb := PyVal.num carb }

/-- Six restaurants whose average total_carb values are 10, 5, 20, 1, 15
and 8, the ranking example of section 8 of the spec. -/
def rankSample : List Row :=
  [sampleRow "A" "x" 0 10, sampleRow "B" "x" 0 5, sampleRow "C" "x" 0 20,
   sampleRow "D" "x" 0 1, sampleRow "E" "x" 0 15, sampleRow "F" "x" 0 8]

/-- A row whose calories cell is the non-numeric string abc. -/
def badCalorieRow : Row :=
  { restaurant := "KFC", item := "Burger", calories := PyVal.str "abc",
    total_carb := PyVal.num 3 }

/-- A raw Chicken Sandwich row. -/
def chickenRow : Row := sampleRow "A" "Chicken Sandwich" 100 10

/-! ## Character-level lemmas: lowercased text holds no capitalized label -/

theorem lowerChar_ne_C (c : Char) : lowerChar c ≠ 'C' := by
  unfold lowerChar
  split <;> simp_all

theorem lowerChar_ne_B (c : Char) : lowerChar c ≠ 'B' := by
  unfold lowerChar
  split <;> simp_all

theorem lowerChar_ne_S (c : Char) : lowerChar c ≠ 'S' := by
  unfold lowerChar
  split <;> simp_all

theorem lowerChar_ne_P (c : Char) : lowerChar c ≠ 'P' := by
  unfold lowerChar
  split <;> simp_all

theorem mem_of_leadsCL {n h : List Char} (hl : leadsCL n h = true) : ∀ c ∈ n, c ∈ h := by
  induction n generalizing h with
  | nil => simp
  | cons a as ih =>
    cases h with
    | nil => simp [leadsCL] at hl
    | cons b bs =>
      simp only [leadsCL, Bool.and_eq_true, beq_iff_eq] at hl
      intro c hc
      rcases List.mem_cons.mp hc with rfl | hc
      · exact List.mem_cons.mpr (Or.inl hl.1)
      · exact List.mem_cons.mpr (Or.inr (ih hl.2 c hc))

theorem mem_of_containsCL {n h : List Char} (hc : containsCL n h = true) : ∀ c ∈ n, c ∈ h := by
  induction h with
  | nil => simpa [containsCL] using fun c hc2 => mem_of_leadsCL hc c hc2
  | cons b bs ih =>
    simp only [containsCL, Bool.or_eq_true] at hc
    rcases hc with hc | hc
    · exact mem_of_leadsCL hc
    · exact fun c hcn => List.mem_cons.mpr (Or.inr (ih hc c hcn))

/-- A needle holding a character that lowercasing can never produce is not a
substring of any lowercased name. -/
theorem pyIn_capitalized_false (u : String) (c : Char) (hc : c ∈ u.data)
    (hne : ∀ d, lowerChar d ≠ c) (s : String) : pyIn u (pyLower s) = false := by
  by_contra hcon
  rw [Bool.not_eq_false] at hcon
  have hmem : c ∈ pyLower s := mem_of_containsCL hcon c hc
  rcases List.mem_map.mp hmem with ⟨d, _, hd⟩
  exact hne d hd

/-! ## The fallback guard of get_subcategory is dead code -/

/-- Every label get_subcategory collects is one of the four capitalized
protein labels. -/
theorem collect_subset (item : String) :
    ∀ sub ∈ collect_subcategories item, sub ∈ ["Chicken", "Beef", "Seafood", "Pork"] := by
  cases h1 : pyIn "chicken" (pyLower item) <;>
  cases h2 : pyIn "beef" (pyLower item) <;>
  cases h3 : pyIn "seafood" (pyLower item) <;>
  cases h4 : pyIn "pork" (pyLower item) <;>
  simp [collect_subcategories, h1, h2, h3, h4]

/-- The guard of get_subcategory compares capitalized labels with the
lowercased item name, so it holds for every item, matched proteins or not. -/
theorem guard_always_true (item : String) :
    (collect_subcategories item).all
      (fun subcategory => !(pyIn subcategory (pyLower item))) = true := by
  rw [List.all_eq_true]
  intro sub hsub
  have hmem := collect_subset item sub hsub
  simp only [List.mem_cons, List.not_mem_nil, or_false] at hmem
  rcases hmem with rfl | rfl | rfl | rfl
  · simp [pyIn_capitalized_false "Chicken" 'C' (by decide) lowerChar_ne_C item]
  · simp [pyIn_capitalized_false "Beef" 'B' (by decide) lowerChar_ne_B item]
  · simp [pyIn_capitalized_false "Seafood" 'S' (by decide) lowerChar_ne_S item]
  · simp [pyIn_capitalized_false "Pork" 'P' (by decide) lowerChar_ne_P item]

/-- For a Main row the label list is always the collected proteins with
Other appended at the end. -/
theorem subcategory_labels_main (item : String) :
    subcategory_labels "Main" item = collect_subcategories item ++ ["Other"] := by
  simp [subcategory_labels, guard_always_true item]

/-- For any category other than Main the label list is empty. -/
theorem subcategory_labels_not_main (category item : String) (h : category ≠ "Main") :
    subcategory_labels category item = [] := by
  simp [subcategory_labels, h]

/-- Joining a label list that ends in Other never yields the empty string. -/
theorem pyJoin_ne_empty (xs : List String) : pyJoin "," (xs ++ ["Other"]) ≠ "" := by
  induction xs with
  | nil => decide
  | cons x xs ih =>
    cases xs with
    | nil =>
      intro hEq
      have := congrArg String.length hEq
      simp [pyJoin, String.length_append] at this
      exact absurd this.1.2 (by decide)
    | cons y t =>
      intro hEq
      have := congrArg String.length hEq
      simp [pyJoin, String.length_append] at this
      exact absurd this.1.2 (by decide)

/-! ## mapMExcept: how errors propagate through a row-wise pass -/

theorem mapMExcept_ok_of_forall {f : α → Except ε β} {l : List α}
    (h : ∀ x ∈ l, ∃ y, f x = Except.ok y) : ∃ ys, mapMExcept f l = Except.ok ys := by
  induction l with
  | nil => exact ⟨[], rfl⟩
  | cons a as ih =>
    rcases h a (List.mem_cons_self a as) with ⟨y, hy⟩
    rcases ih (fun x hx => h x (List.mem_cons_of_mem a hx)) with ⟨ys, hys⟩
    exact ⟨y :: ys, by simp [mapMExcept, hy, hys]; rfl⟩

theorem mapMExcept_error_of_mem {f : α → Except ε β} {l : List α} {x : α}
    (hx : x ∈ l) (he : ∃ e, f x = Except.error e) :
    ∃ e, mapMExcept f l = Except.error e := by
  induction l with
  | nil => simp at hx
  | cons a as ih =>
    cases hfa : f a with
    | error e => exact ⟨e, by simp [mapMExcept, hfa]; rfl⟩
    | ok y =>
      rcases List.mem_cons.mp hx with rfl | hx
      · rcases he with ⟨e, he⟩
        rw [hfa] at he
        exact absurd he (by simp)
      · rcases ih hx with ⟨e, hes⟩
        exact ⟨e, by simp [mapMExcept, hfa, hes]; rfl⟩

theorem mapMExcept_map {f : α → Except ε β} {g : α → β} {l : List α}
    (h : ∀ x ∈ l, f x = Except.ok (g x)) : mapMExcept f l = Except.ok (l.map g) := by
  induction l with
  | nil => rfl
  | cons a as ih =>
    have ha := h a (List.mem_cons_self a as)
    have has := ih fun x hx => h x (List.mem_cons_of_mem a hx)
    simp [mapMExcept, ha, has]
    rfl

theorem mapMExcept_ok_length {f : α → Except ε β} {l : List α} {ys : List β}
    (h : mapMExcept f l = Except.ok ys) : ys.length = l.length := by
  induction l generalizing ys with
  | nil =>
    simp only [mapMExcept] at h
    cases h
    rfl
  | cons a as ih =>
    simp only [mapMExcept] at h
    cases hfa : f a with
    | error e =>
      rw [hfa] at h
      exact absurd h (by simp [Bind.bind, Except.bind])
    | ok y =>
      rw [hfa] at h
      cases hfs : mapMExcept f as with
      | error e =>
        rw [hfs] at h
        exact absurd h (by simp [Bind.bind, Except.bind])
      | ok zs =>
        rw [hfs] at h
        have : y :: zs = ys := by
          simpa [Bind.bind, Except.bind, Pure.pure, Except.pure] using h
        rw [← this]
        simp [ih hfs]

/-- An Except result forgotten to an Option is none exactly when it is an
error. -/
theorem toOption_eq_none_iff (x : Except ε α) :
    x.toOption = none ↔ ∃ e, x = Except.error e := by
  cases x <;> simp [Except.toOption]

theorem toOption_map_eq_none_iff (x : Except ε α) (f : α → β) :
    (x.map f).toOption = none ↔ ∃ e, x = Except.error e := by
  cases x <;> simp [Except.map, Except.toOption]

/-! ## Grouping lemmas -/

theorem mem_sortedRestaurants {data : List Row} {r : Row} (hr : r ∈ data) :
    r.restaurant ∈ sortedRestaurants data := by
  unfold sortedRestaurants
  have hmem : r.restaurant ∈ (data.map fun x => x.restaurant).dedup :=
    List.mem_dedup.mpr (List.mem_map.mpr ⟨r, hr, rfl⟩)
  exact ((List.perm_insertionSort _ _).mem_iff).mpr hmem

theorem mem_groupRecords {data : List Row} {r : Row} (hr : r ∈ data) :
    r ∈ groupRecords data r.restaurant := by
  simp [groupRecords, hr]

theorem groupRecords_subset (data : List Row) (k : String) :
    ∀ x ∈ groupRecords data k, x ∈ data :=
  fun _ hx => List.mem_of_mem_filter hx

/-- Shared shape of both aggregations: a group-wise numeric reduction raises
exactly when some record's cell in the aggregated column is non-numeric. -/
theorem groupAgg_error_iff (field : Row → PyVal) (g : List ℚ → β) (data : List Row) :
    (∃ e, mapMExcept (fun r => do
        let xs ← mapMExcept (fun row => toNum (field row)) (groupRecords data r)
        pure (r, g xs)) (sortedRestaurants data) = Except.error e) ↔
      ∃ r ∈ data, ∃ s, field r = PyVal.str s := by
  constructor
  · rintro ⟨e, he⟩
    by_contra hno
    push_neg at hno
    have hok : ∀ k ∈ sortedRestaurants data, ∃ y, (do
        let xs ← mapMExcept (fun row => toNum (field row)) (groupRecords data k)
        pure (k, g xs) : Except String (String × β)) = Except.ok y := by
      intro k _
      have hinner : ∃ ys, mapMExcept (fun row => toNum (field row)) (groupRecords data k)
          = Except.ok ys := by
        apply mapMExcept_ok_of_forall
        intro x hx
        have hxd : x ∈ data := groupRecords_subset data k x hx
        cases hf : field x with
        | num q => exact ⟨q, by simp [toNum, hf]⟩
        | str s => exact absurd hf (hno x hxd s)
      rcases hinner with ⟨ys, hys⟩
      exact ⟨(k, g ys), by rw [hys]; rfl⟩
    rcases mapMExcept_ok_of_forall hok with ⟨out, hout⟩
    rw [hout] at he
    exact absurd he (by simp)
  · rintro ⟨r, hr, s, hs⟩
    apply mapMExcept_error_of_mem (mem_sortedRestaurants hr)
    have hinner : ∃ e, mapMExcept (fun row => toNum (field row))
        (groupRecords data r.restaurant) = Except.error e := by
      apply mapMExcept_error_of_mem (mem_groupRecords hr)
      exact ⟨"TypeError: non-numeric value " ++ s, by simp [toNum, hs]⟩
    rcases hinner with ⟨e, he⟩
    exact ⟨e, by rw [he]; rfl⟩

/-- calculate_calorie_stats returns None exactly when some record's calories
cell is non-numeric. -/
theorem calculate_calorie_stats_none_iff (data : List Row) :
    calculate_calorie_stats data = none ↔ ∃ r ∈ data, ∃ s, r.calories = PyVal.str s := by
  unfold calculate_calorie_stats calorieStatsAgg
  rw [toOption_eq_none_iff]
  exact groupAgg_error_iff (fun r => r.calories)
    (fun cals => CalorieStat.mk (listMean cals) (listMin cals) (listMax cals)) data

/-- rank_restaurants_by_carbs returns None exactly when some record's
total_carb cell is non-numeric. -/
theorem rank_none_iff (data : List Row) :
    rank_restaurants_by_carbs data = none ↔ ∃ r ∈ data, ∃ s, r.total_carb = PyVal.str s := by
  unfold rank_restaurants_by_carbs carbAverages
  rw [toOption_map_eq_none_iff]
  exact groupAgg_error_iff (fun r => r.total_carb) (fun carbs => listMean carbs) data

/-- add_subcategory returns None exactly when some row has no category
column (the KeyError path of get_subcategory). -/
theorem add_subcategory_none_iff (data : List Row) :
    add_subcategory data = none ↔ ∃ r ∈ data, r.category = none := by
  unfold add_subcategory
  rw [toOption_eq_none_iff]
  constructor
  · rintro ⟨e, he⟩
    by_contra hno
    push_neg at hno
    have hok : ∀ r ∈ data, ∃ y, (do
        let s ← get_subcategory r
        pure { r with sub_category := some s } : Except String Row) = Except.ok y := by
      intro r hr
      cases hc : r.category with
      | none => exact absurd hc (hno r hr)
      | some c =>
        refine ⟨{ r with sub_category := some (pyJoin "," (subcategory_labels c r.item)) }, ?_⟩
        simp [get_subcategory, hc]
    rcases mapMExcept_ok_of_forall hok with ⟨ys, hys⟩
    rw [hys] at he
    exact absurd he (by simp)
  · rintro ⟨r, hr, hc⟩
    apply mapMExcept_error_of_mem hr
    exact ⟨"KeyError: category", by simp [get_subcategory, hc]⟩

/-- The classification stage as one pure per-row map: categorize, then the
subcategory pass, which cannot raise on rows that just received their
category. -/
theorem classifyStage_eq (data : List Row) :
    classifyStage data = some (data.map classifyRow) := by
  unfold classifyStage categorize_food_items
  rw [Option.some_bind]
  unfold add_subcategory
  have hmap : mapMExcept (fun r => do
      let s ← get_subcategory r
      pure { r with sub_category := some s })
      (data.map fun r => { r with category := some (categorize_item r.item) })
      = Except.ok ((data.map fun r => { r with category := some (categorize_item r.item) }).map
          fun r => { r with sub_category := some (pyJoin "," (subcategory_labels (r.category.getD "") r.item)) }) := by
    apply mapMExcept_map
    intro x hx
    rcases List.mem_map.mp hx with ⟨r, _, rfl⟩
    simp [get_subcategory]
  rw [hmap]
  rw [List.map_map]
  rfl

/-! ## Ranking lemmas -/

instance : IsTotal (String × ℚ) fun a b => a.2 ≤ b.2 :=
  ⟨fun a b => le_total a.2 b.2⟩

instance : IsTrans (String × ℚ) fun a b => a.2 ≤ b.2 :=
  ⟨fun _ _ _ hab hbc => le_trans hab hbc⟩

/-- The ranking keeps min 5 n entries of the n averages: all of them when
fewer than five restaurants exist, with no padding. -/
theorem rankCore_length (avgs : List (String × ℚ)) :
    (rankCore avgs).length = min 5 avgs.length := by
  unfold rankCore
  rw [List.length_take, (List.perm_insertionSort _ avgs).length_eq]

/-- The ranking is ascending in the average value. -/
theorem rankCore_sorted (avgs : List (String × ℚ)) :
    List.Pairwise (fun a b => a.2 ≤ b.2) (rankCore avgs) := by
  have hs : List.Sorted (fun a b => a.2 ≤ b.2) (avgs.insertionSort fun a b => a.2 ≤ b.2) :=
    List.sorted_insertionSort (fun a b : String × ℚ => a.2 ≤ b.2) avgs
  exact List.Pairwise.sublist (List.take_sublist 5 _) hs

/-- Any average left out of the ranking is at least every average kept: the
five kept are the smallest. -/
theorem rankCore_keeps_smallest (avgs : List (String × ℚ)) (q : String × ℚ)
    (hq : q ∈ avgs) (hnot : q ∉ rankCore avgs) :
    ∀ p ∈ rankCore avgs, p.2 ≤ q.2 := by
  intro p hp
  set sorted := avgs.insertionSort fun a b => a.2 ≤ b.2 with hsorted
  have hmem : q ∈ sorted := ((List.perm_insertionSort _ avgs).mem_iff).mpr hq
  have hsplit : sorted.take 5 ++ sorted.drop 5 = sorted := List.take_append_drop 5 sorted
  have hdrop : q ∈ sorted.drop 5 := by
    rcases List.mem_append.mp (by rw [hsplit]; exact hmem) with h | h
    · exact absurd h hnot
    · exact h
  have hpair : List.Pairwise (fun a b => a.2 ≤ b.2) (sorted.take 5 ++ sorted.drop 5) := by
    rw [hsplit]
    exact List.sorted_insertionSort (fun a b : String × ℚ => a.2 ≤ b.2) avgs
  exact ((List.pairwise_append.mp hpair).2.2) p hp q hdrop

/-- Stage-1 classification always yields one of the four categories. -/
theorem categorize_item_mem (item : String) :
    categorize_item item ∈ ["Main", "Side", "Dessert", "Other"] := by
  unfold categorize_item
  split
  · simp
  · split
    · simp
    · split <;> simp

/-! ## The claims -/

/-- Claim C1: the code evaluated at the failing input of the claim.  The spec
expects sub_category Chicken for a Chicken Sandwich, with Other only as a
fallback when no protein matches; the code appends Other unconditionally, so
the joined column reads Chicken,Other (and Beef,Pork,Other for the
Beef and Pork Burger example). -/
theorem c1_subcategory_always_gets_other :
    subcategory_labels "Main" "Chicken Sandwich" = ["Chicken", "Other"] ∧
      get_subcategory { chickenRow with category := some "Main" } =
        Except.ok "Chicken,Other" ∧
      subcategory_labels "Main" "Beef and Pork Burger" = ["Beef", "Pork", "Other"] := by
  refine ⟨by decide, rfl, by decide⟩

/-- Claim C2: stage-1 classification agrees with the ordered rule table of the
spec (first keyword group with a case-insensitive substring match wins, in
the order Main, Side, Dessert, else Other), and an item name containing both
burger and cake is classified Main. -/
theorem c2_category_priority :
    (∀ item, categorize_item item = spec_categorize item) ∧
      (∀ item, pyIn "burger" (pyLower item) = true → pyIn "cake" (pyLower item) = true →
        categorize_item item = "Main") := by
  constructor
  · intro item
    unfold categorize_item spec_categorize category_rules main_keywords side_keywords
      dessert_keywords
    cases h1 : ["burger", "sandwich", "pizza"].any (fun keyword => pyIn keyword (pyLower item)) <;>
    cases h2 : ["fries", "salad"].any (fun keyword => pyIn keyword (pyLower item)) <;>
    cases h3 : ["ice cream", "cake"].any (fun keyword => pyIn keyword (pyLower item)) <;>
    simp [List.find?, h1, h2, h3]
  · intro item hb _
    unfold categorize_item
    have hmain : main_keywords.any (fun keyword => pyIn keyword (pyLower item)) = true := by
      simp [main_keywords, hb]
    simp [hmain]

/-- Claim C2 witness: Burger Cake matches both a Main and a Dessert keyword
and is classified Main. -/
theorem c2_witness : categorize_item "Burger Cake" = "Main" :=
  c2_category_priority.2 "Burger Cake" (by decide) (by decide)

/-- Claim C3: after the classification stage every record's category is one of
Main, Side, Dessert, Other, and its sub_category column is the empty string
exactly when the category is not Main. -/
theorem c3_classification_invariants (data out : List Row)
    (h : classifyStage data = some out) :
    ∀ r ∈ out, r.category ∈ [some "Main", some "Side", some "Dessert", some "Other"] ∧
      (r.sub_category = some "" ↔ r.category ≠ some "Main") := by
  rw [classifyStage_eq] at h
  have hout : out = data.map classifyRow := (Option.some_inj.mp h).symm
  subst hout
  intro r hr
  rcases List.mem_map.mp hr with ⟨r0, _, rfl⟩
  constructor
  · have hmem := categorize_item_mem r0.item
    simp only [List.mem_cons, List.not_mem_nil, or_false] at hmem ⊢
    rcases hmem with h4 | h4 | h4 | h4 <;> simp [classifyRow, h4]
  · by_cases hm : categorize_item r0.item = "Main"
    · constructor
      · intro habs
        have hjoin : pyJoin "," (subcategory_labels (categorize_item r0.item) r0.item) = "" := by
          simpa [classifyRow] using habs
        rw [hm, subcategory_labels_main] at hjoin
        exact absurd hjoin (pyJoin_ne_empty (collect_subcategories r0.item))
      · intro hne
        exact absurd (by simp [classifyRow, hm]) hne
    · constructor
      · intro _
        simp [classifyRow, hm]
      · intro _
        simp [classifyRow, subcategory_labels_not_main (categorize_item r0.item) r0.item hm,
          pyJoin]

/-- Claim C3 witness: the invariants at the classified Chicken Sandwich row. -/
theorem c3_witness :
    (classifyRow chickenRow).category ∈
        [some "Main", some "Side", some "Dessert", some "Other"] ∧
      ((classifyRow chickenRow).sub_category = some "" ↔
        (classifyRow chickenRow).category ≠ some "Main") :=
  c3_classification_invariants [chickenRow] [classifyRow chickenRow] (by decide)
    (classifyRow chickenRow) (by decide)

/-- Claim C5 counterexample: on a record whose calories cell is the
non-numeric string abc, the inner aggregation raises a typed error, but
calculate_calorie_stats catches it and hands the caller None instead of an
explicit typed failure. -/
theorem c5_counterexample :
    calorieStatsAgg [badCalorieRow] =
        Except.error "TypeError: non-numeric value abc" ∧
      calculate_calorie_stats [badCalorieRow] = none := by
  refine ⟨rfl, by decide⟩

/-- Claim C5 as amended: a non-numeric calories value in any record makes the
whole operation fail with no partial result, but the failure is caught and
logged inside calculate_calorie_stats, which returns None to its caller
rather than surfacing a typed error. -/
theorem c5_stats_failure_swallowed (data : List Row) (r : Row) (s : String)
    (hr : r ∈ data) (hs : r.calories = PyVal.str s) :
    calculate_calorie_stats data = none :=
  (calculate_calorie_stats_none_iff data).mpr ⟨r, hr, s, hs⟩

/-- Claim C5 witness: the amended claim at the concrete bad record. -/
theorem c5_witness : calculate_calorie_stats [badCalorieRow] = none :=
  c5_stats_failure_swallowed [badCalorieRow] badCalorieRow "abc" (by decide) (by decide)

/-- Claim C6: on the empty record set the stats mapping, the ranking and the
classified record set are all empty, and all three operations succeed. -/
theorem c6_empty_inputs :
    calculate_calorie_stats [] = some [] ∧ rank_restaurants_by_carbs [] = some [] ∧
      classifyStage [] = some [] :=
  ⟨rfl, rfl, rfl⟩

/-- Claim C7: the ranking keeps min 5 n of the n per-restaurant averages (all
of them, with no padding, when fewer than five restaurants exist), ascending
by average, every kept average at most every dropped one; and on the six
restaurants with averages 10, 5, 20, 1, 15, 8 it is exactly D, B, F, A, E
with C excluded. -/
theorem c7_rank_smallest_five :
    (∀ data avgs, carbAverages data = Except.ok avgs →
        rank_restaurants_by_carbs data = some (rankCore avgs) ∧
          avgs.length = (sortedRestaurants data).length) ∧
      (∀ avgs, (rankCore avgs).length = min 5 avgs.length) ∧
      (∀ avgs, List.Pairwise (fun a b : String × ℚ => a.2 ≤ b.2) (rankCore avgs)) ∧
      (∀ avgs q, q ∈ avgs → q ∉ rankCore avgs → ∀ p ∈ rankCore avgs, p.2 ≤ q.2) ∧
      rank_restaurants_by_carbs rankSample =
        some [("D", 1), ("B", 5), ("F", 8), ("A", 10), ("E", 15)] := by
  refine ⟨?_, rankCore_length, rankCore_sorted, rankCore_keeps_smallest, ?_⟩
  · intro data avgs h
    refine ⟨?_, ?_⟩
    · unfold rank_restaurants_by_carbs
      rw [h]
      rfl
    · unfold carbAverages at h
      exact mapMExcept_ok_length h
  · have h1 : sortedRestaurants rankSample = ["A", "B", "C", "D", "E", "F"] := by decide
    have gA : groupRecords rankSample "A" = [sampleRow "A" "x" 0 10] := by decide
    have gB : groupRecords rankSample "B" = [sampleRow "B" "x" 0 5] := by decide
    have gC : groupRecords rankSample "C" = [sampleRow "C" "x" 0 20] := by decide
    have gD : groupRecords rankSample "D" = [sampleRow "D" "x" 0 1] := by decide
    have gE : groupRecords rankSample "E" = [sampleRow "E" "x" 0 15] := by decide
    have gF : groupRecords rankSample "F" = [sampleRow "F" "x" 0 8] := by decide
    have havg : carbAverages rankSample =
        Except.ok [("A", 10), ("B", 5), ("C", 20), ("D", 1), ("E", 15), ("F", 8)] := by
      simp [carbAverages, h1, gA, gB, gC, gD, gE, gF, mapMExcept, toNum, sampleRow, listMean]
      rfl
    rw [rank_restaurants_by_carbs, havg]
    decide

/-- Claim C7 witness: the general statement applied to the six-restaurant
sample, whose averages computation succeeds. -/
theorem c7_witness :
    rank_restaurants_by_carbs rankSample =
        some (rankCore [("A", 10), ("B", 5), ("C", 20), ("D", 1), ("E", 15), ("F", 8)]) ∧
      ([("A", 10), ("B", 5), ("C", 20), ("D", 1), ("E", 15), ("F", 8)] :
        List (String × ℚ)).length = (sortedRestaurants rankSample).length :=
  c7_rank_smallest_five.1 rankSample
    [("A", 10), ("B", 5), ("C", 20), ("D", 1), ("E", 15), ("F", 8)]
    (by
      have h1 : sortedRestaurants rankSample = ["A", "B", "C", "D", "E", "F"] := by decide
      have gA : groupRecords rankSample "A" = [sampleRow "A" "x" 0 10] := by decide
      have gB : groupRecords rankSample "B" = [sampleRow "B" "x" 0 5] := by decide
      have gC : groupRecords rankSample "C" = [sampleRow "C" "x" 0 20] := by decide
      have gD : groupRecords rankSample "D" = [sampleRow "D" "x" 0 1] := by decide
      have gE : groupRecords rankSample "E" = [sampleRow "E" "x" 0 15] := by decide
      have gF : groupRecords rankSample "F" = [sampleRow "F" "x" 0 8] := by decide
      simp [carbAverages, h1, gA, gB, gC, gD, gE, gF, mapMExcept, toNum, sampleRow, listMean]
      rfl)

/-- Claim C8: the classification stage is idempotent (running it on its own
output reproduces that output) and per-row pure in the item name: rows with
the same item name receive the same category and sub_category. -/
theorem c8_classification_idempotent (data out : List Row)
    (h : classifyStage data = some out) :
    classifyStage out = some out ∧
      ∀ r1 r2 : Row, r1.item = r2.item →
        (classifyRow r1).category = (classifyRow r2).category ∧
          (classifyRow r1).sub_category = (classifyRow r2).sub_category := by
  constructor
  · rw [classifyStage_eq] at h
    have hout : out = data.map classifyRow := (Option.some_inj.mp h).symm
    subst hout
    rw [classifyStage_eq, List.map_map]
    have hcomp : classifyRow ∘ classifyRow = classifyRow := funext fun r => rfl
    rw [hcomp]
  · intro r1 r2 hitem
    constructor <;> simp [classifyRow, hitem]

/-- Claim C8 witness: reclassifying the classified Chicken Sandwich row
changes nothing. -/
theorem c8_witness :
    classifyStage [classifyRow chickenRow] = some [classifyRow chickenRow] ∧
      ∀ r1 r2 : Row, r1.item = r2.item →
        (classifyRow r1).category = (classifyRow r2).category ∧
          (classifyRow r1).sub_category = (classifyRow r2).sub_category :=
  c8_classification_idempotent [chickenRow] [classifyRow chickenRow] (by decide)

/-- Claim C9: for every item classified Main the label Other is appended as
the last member of sub_category, matched proteins or not: the fallback guard
compares capitalized labels against the lowercased item name and never finds
a match. -/
theorem c9_other_always_member (item : String) :
    subcategory_labels "Main" item = collect_subcategories item ++ ["Other"] ∧
      (subcategory_labels "Main" item).getLast? = some "Other" ∧
      "Other" ∈ subcategory_labels "Main" item := by
  refine ⟨subcategory_labels_main item, ?_, ?_⟩
  · rw [subcategory_labels_main item]
    simp
  · rw [subcategory_labels_main item]
    simp

/-- Claim C10: each embedded pipeline operation catches the exceptions of its
work and returns None instead, and otherwise returns its value: the stats
and ranking are None exactly when a cell of the aggregated column is
non-numeric, categorization always succeeds, and the subcategory pass is
None exactly when a row lacks its category column.  No operation raises. -/
theorem c10_catch_log_return_none :
    (∀ data, calculate_calorie_stats data = none ↔
        ∃ r ∈ data, ∃ s, r.calories = PyVal.str s) ∧
      (∀ data, rank_restaurants_by_carbs data = none ↔
        ∃ r ∈ data, ∃ s, r.total_carb = PyVal.str s) ∧
      (∀ data, categorize_food_items data =
        some (data.map fun r => { r with category := some (categorize_item r.item) })) ∧
      (∀ data, add_subcategory data = none ↔ ∃ r ∈ data, r.category = none) :=
  ⟨calculate_calorie_stats_none_iff, rank_none_iff, fun _ => rfl, add_subcategory_none_iff⟩

end Fastfood
